import Mathlib

/-!
Shallow embedding of the Nexus-to-ACI migration engine
(`scripts/aci_migration_automation.py`): the Nexus config line parser,
the VLAN range expander, the corpus loader, the CSV migration-mapping
loader, the VLAN consistency check, and the pre-migration aggregation.

Strings are modelled as lists of characters (`PyStr`); the Python string
primitives used by the source (`strip`, `split`, `split(sep)`, `join`,
`startswith`, `int`, `str`, slicing) are given explicit executable
definitions mirroring Python semantics.  Python dicts are modelled as
insertion-ordered association lists: inserting an existing key updates
the value in place, a new key is appended.
-/

set_option linter.unusedVariables false

abbrev PyStr := List Char

/-- Python `str.strip()`: remove leading and trailing whitespace. -/
def pyStrip (s : PyStr) : PyStr :=
  ((s.dropWhile Char.isWhitespace).reverse.dropWhile Char.isWhitespace).reverse

/-- Helper for Python `str.split()` with no separator: accumulates the
current token (reversed) and emits it at whitespace boundaries. -/
def splitWsAux : List Char → List Char → List PyStr
  | [], acc => if acc = [] then [] else [acc.reverse]
  | c :: cs, acc =>
    if c.isWhitespace then
      if acc = [] then splitWsAux cs [] else acc.reverse :: splitWsAux cs []
    else splitWsAux cs (c :: acc)

/-- Python `str.split()` (no argument): split on whitespace runs,
discarding empty tokens. -/
def pySplitWs (s : PyStr) : List PyStr := splitWsAux s []

/-- Python `str.split(sep)` for a one-character separator: split at every
occurrence, keeping empty pieces (`"".split(sep) = [""]`). -/
def pySplitOn (sep : Char) : PyStr → List PyStr
  | [] => [[]]
  | c :: cs =>
    if c = sep then [] :: pySplitOn sep cs
    else
      match pySplitOn sep cs with
      | [] => [[c]]
      | t :: ts => (c :: t) :: ts

/-- Python `s.startswith(p)`. -/
def pyStartsWith : PyStr → PyStr → Bool
  | _, [] => true
  | [], _ :: _ => false
  | a :: as_, b :: bs => a == b && pyStartsWith as_ bs

/-- Python `s.endswith(p)`. -/
def pyEndsWith (s p : PyStr) : Bool := pyStartsWith s.reverse p.reverse

/-- Python `' '.join(tokens)`. -/
def pyJoinSpace (ls : List PyStr) : PyStr := List.intercalate [' '] ls

/-- Value of a decimal digit list, most significant first. -/
def digitsToNat (l : List Char) : Nat :=
  l.foldl (fun a c => a * 10 + (c.toNat - 48)) 0

/-- Python `int(s)` restricted to the call sites of the source, where the
argument never contains a minus sign (it is always a piece of a
`split('-')`): strip whitespace, allow an optional leading `+`, then
require a nonempty run of ASCII digits.  (Python additionally accepts
underscore digit separators and non-ASCII decimal digits; those never
occur in the configuration dialect and are not modelled.) -/
def pyIntNat (s : PyStr) : Option Nat :=
  let t := pyStrip s
  let t := match t with
    | c :: r => if c = '+' then r else c :: r
    | [] => []
  if t ≠ [] ∧ t.all Char.isDigit then some (digitsToNat t) else none

/-- Character for a decimal digit value. -/
def digitChar (d : Nat) : Char := Char.ofNat (48 + d)

/-- Fuel-driven decimal rendering, structural so that the kernel can
evaluate it. -/
def natToStrAux : Nat → Nat → List Char
  | 0, _ => []
  | fuel + 1, n =>
    if n < 10 then [digitChar n]
    else natToStrAux fuel (n / 10) ++ [digitChar (n % 10)]

/-- Python `str(n)` for a natural number. -/
def natToStr (n : Nat) : PyStr := natToStrAux (n + 1) n

/-- Python `range(a, b + 1)` as a list: `[a, a+1, …, b]`, empty when
`b < a`. -/
def pyRange (a b : Nat) : List Nat := List.range' a (b + 1 - a)

section Dict

variable {κ : Type} {α : Type} [DecidableEq κ]

/-- Python dict assignment `d[k] = v` on an insertion-ordered
association list: an existing key keeps its position and gets the new
value, a new key is appended. -/
def dictInsert (k : κ) (v : α) : List (κ × α) → List (κ × α)
  | [] => [(k, v)]
  | p :: ps => if p.1 = k then (k, v) :: ps else p :: dictInsert k v ps

/-- Python dict lookup `d.get(k)`. -/
def dictLookup (k : κ) : List (κ × α) → Option α
  | [] => none
  | p :: ps => if p.1 = k then some p.2 else dictLookup k ps

/-- Python in-place field update `d[k] = f(d[k])` (a no-op when the key
is absent; at every call site of the embedding the key is present). -/
def dictUpdate (k : κ) (f : α → α) (d : List (κ × α)) : List (κ × α) :=
  d.map (fun p => if p.1 = k then (k, f p.2) else p)

/-- Lookup that returns the value of the last pair with the given key
(the value a dict built by successive assignments would hold). -/
def lastAssoc (k : κ) : List (κ × α) → Option α
  | [] => none
  | p :: ps =>
    match lastAssoc k ps with
    | some v => some v
    | none => if p.1 = k then some p.2 else none

end Dict

deriving instance DecidableEq for Except

/-- Record stored in `config_data['vlans']` (keyed by the VLAN id
string): just a `name` field. -/
structure VlanRecord where
  name : PyStr
deriving DecidableEq

/-- Record stored in `config_data['interfaces']`.  The source field
`type` is rendered `itype` (`type` is a Lean keyword); it is always
`"unknown"`. -/
structure InterfaceRecord where
  itype : PyStr
  mode : PyStr
  vlans : List PyStr
  description : PyStr
deriving DecidableEq

/-- The `config_data` dictionary built by `parse_config_file`.  The
source also carries `vpc_config` and `routing` sub-dictionaries, but no
statement in the parser ever writes to them (they stay `{}`), so they
are omitted. -/
structure DeviceConfig where
  hostname : PyStr := []
  vlans : List (PyStr × VlanRecord) := []
  interfaces : List (PyStr × InterfaceRecord) := []
deriving DecidableEq

/-- The mutable loop state of `parse_config_file`: the config built so
far, `current_section` and `current_interface`. -/
structure ParseState where
  config : DeviceConfig
  currentSection : Option PyStr
  currentInterface : Option PyStr
deriving DecidableEq

/-- Body of `_parse_vlan_list`'s per-token expansion after the
`part = part.strip()` rebinding: a token containing `-` must split into
exactly two `int()`-parsable pieces and expands to `range(start, end+1)`
rendered back to strings; any other token is appended verbatim.  The
`Except.error` cases are the `ValueError`s Python would raise. -/
def expandStripped (part : PyStr) : Except Unit (List PyStr) :=
  if part.contains '-' then
    match pySplitOn '-' part with
    | [s, e] =>
      match pyIntNat s, pyIntNat e with
      | some a, some b => .ok ((pyRange a b).map natToStr)
      | _, _ => .error ()
    | _ => .error ()
  else .ok [part]

/-- Expansion of one comma-separated token inside `_parse_vlan_list`:
strip, then expand. -/
def expandPart (part0 : PyStr) : Except Unit (List PyStr) :=
  expandStripped (pyStrip part0)

/-- Left-to-right accumulation of `_parse_vlan_list`'s loop; the first
failing token aborts the whole call (Python: the exception propagates,
the partial list is discarded). -/
def parseVlanListAux : List PyStr → Except Unit (List PyStr)
  | [] => .ok []
  | p :: ps => do
    let v ← expandPart p
    let rest ← parseVlanListAux ps
    .ok (v ++ rest)

/-- `NexusConfigParser._parse_vlan_list` (the Range Expander): split the
argument on commas and expand each token. -/
def parse_vlan_list (vlanString : PyStr) : Except Unit (List PyStr) :=
  parseVlanListAux (pySplitOn ',' vlanString)

/-- Initial interface record created by the `interface ` branch. -/
def newInterfaceRecord : InterfaceRecord :=
  ⟨("unknown").data, ("access").data, [], []⟩

/-- One iteration of the `for line in lines` loop of
`parse_config_file` applied to the already-stripped line: the `if/elif`
chain, translated branch for branch.  `Except.error` marks the
exceptions (`ValueError` from `int`/unpacking, `IndexError` from
`split()[1]`) which the surrounding `try` of `parse_config_file`
catches. -/
def parseLineStripped (st : ParseState) (line : PyStr) :
    Except Unit ParseState :=
  if pyStartsWith line ("!").data || line = [] then
    .ok st
  else if pyStartsWith line ("hostname").data then
    match (pySplitWs line).get? 1 with
    | some h => .ok { st with config := { st.config with hostname := h } }
    | none => .error ()
  else if pyStartsWith line ("vlan ").data then
    match (pySplitWs line).get? 1 with
    | none => .error ()
    | some vlanRange =>
      if vlanRange.contains '-' then
        match pySplitOn '-' vlanRange with
        | [s, e] =>
          match pyIntNat s, pyIntNat e with
          | some a, some b =>
            .ok { st with
              currentSection := some ("vlan").data,
              config := { st.config with
                vlans := (pyRange a b).foldl
                  (fun d i => dictInsert (natToStr i)
                    ⟨("VLAN_").data ++ natToStr i⟩ d) st.config.vlans } }
          | _, _ => .error ()
        | _ => .error ()
      else
        .ok { st with
          currentSection := some ("vlan").data,
          config := { st.config with
            vlans := dictInsert vlanRange
              ⟨("VLAN_").data ++ vlanRange⟩ st.config.vlans } }
  else if pyStartsWith line ("name ").data &&
      st.currentSection = some ("vlan").data then
    if st.config.vlans = [] then .ok st
    else
      match (st.config.vlans.map Prod.fst).getLast? with
      | some lastVlan =>
        .ok { st with config := { st.config with
          vlans := dictUpdate lastVlan
            (fun _ => ⟨pyJoinSpace ((pySplitWs line).drop 1)⟩)
            st.config.vlans } }
      | none => .ok st
  else if pyStartsWith line ("interface ").data then
    match (pySplitWs line).get? 1 with
    | some ifname =>
      .ok { st with
        currentInterface := some ifname,
        currentSection := some ("interface").data,
        config := { st.config with
          interfaces := dictInsert ifname newInterfaceRecord
            st.config.interfaces } }
    | none => .error ()
  else if st.currentSection = some ("interface").data &&
      st.currentInterface.isSome then
    if pyStartsWith line ("description ").data then
      .ok { st with config := { st.config with
        interfaces := dictUpdate (st.currentInterface.getD [])
          (fun r => { r with
            description := pyJoinSpace ((pySplitWs line).drop 1) })
          st.config.interfaces } }
    else if pyStartsWith line ("switchport mode").data then
      match (pySplitWs line).getLast? with
      | some m =>
        .ok { st with config := { st.config with
          interfaces := dictUpdate (st.currentInterface.getD [])
            (fun r => { r with mode := m }) st.config.interfaces } }
      | none => .error ()
    else if pyStartsWith line ("switchport access vlan").data then
      match (pySplitWs line).getLast? with
      | some v =>
        .ok { st with config := { st.config with
          interfaces := dictUpdate (st.currentInterface.getD [])
            (fun r => { r with vlans := [v] }) st.config.interfaces } }
      | none => .error ()
    else if pyStartsWith line ("switchport trunk allowed vlan").data then
      match parse_vlan_list (pyJoinSpace ((pySplitWs line).drop 4)) with
      | .ok vs =>
        .ok { st with config := { st.config with
          interfaces := dictUpdate (st.currentInterface.getD [])
            (fun r => { r with vlans := vs }) st.config.interfaces } }
      | .error e => .error e
    else .ok st
  else if !pyStartsWith line (" ").data && st.currentSection.isSome then
    .ok { st with currentSection := none, currentInterface := none }
  else .ok st

/-- One loop iteration on a raw line: the `line = line.strip()`
rebinding followed by the branch chain. -/
def parseLine (st : ParseState) (rawLine : PyStr) : Except Unit ParseState :=
  parseLineStripped st (pyStrip rawLine)

/-- The loop of `parse_config_file` with its surrounding `try`: the
first line whose processing raises makes the function fall into the
`except` branch, which returns the `config_data` built so far. -/
def runLines : ParseState → List PyStr → ParseState
  | st, [] => st
  | st, l :: ls =>
    match parseLine st l with
    | .ok st2 => runLines st2 ls
    | .error _ => st

/-- The same loop with the exception left transparent, used to state
which prefix of a file parses cleanly. -/
def runLinesE : ParseState → List PyStr → Except Unit ParseState
  | st, [] => .ok st
  | st, l :: ls =>
    match parseLine st l with
    | .ok st2 => runLinesE st2 ls
    | .error e => .error e

/-- Initial state of `parse_config_file`. -/
def initState : ParseState := ⟨{}, none, none⟩

/-- `NexusConfigParser.parse_config_file`: parse one file's lines,
always returning a (possibly partial) `DeviceConfig`. -/
def parse_config_file (lines : List PyStr) : DeviceConfig :=
  (runLines initState lines).config

/-- `Path.stem` for a name matched by the glob `*.cfg`: the filename
with the `.cfg` suffix stripped. -/
def pyStem (f : PyStr) : PyStr := f.take (f.length - 4)

/-- `NexusConfigParser.parse_all_configs`: keep the files matching
`*.cfg`, parse each, and assign the result into the `parsed_configs`
dict keyed by the file's stem. -/
def parse_all_configs (files : List (PyStr × List PyStr)) :
    List (PyStr × DeviceConfig) :=
  (files.filter (fun f => pyEndsWith f.1 (".cfg").data)).foldl
    (fun acc f => dictInsert (pyStem f.1) (parse_config_file f.2) acc) []

/-- One VLAN's target attributes, the value stored by
`generate_migration_mapping` for a row.  Fields follow the dict literal
of the source; a value is `none` when `csv.DictReader` filled the cell
with its `restval` (`None`, for a row shorter than the header). -/
structure MappingEntry where
  vlan_name : Option PyStr
  tenant : Option PyStr
  app_profile : Option PyStr
  epg : Option PyStr
  bridge_domain : Option PyStr
  subnet : Option PyStr
  priority : Option PyStr
  notes : Option PyStr
deriving DecidableEq

/-- All-`none` entry, used only as the default of `rowEntryD`. -/
def emptyEntry : MappingEntry := ⟨none, none, none, none, none, none, none, none⟩

/-- Index of the last occurrence of a column name in the header. -/
def lastIndexOf (col : PyStr) (header : List PyStr) : Option Nat :=
  match header.reverse.findIdx? (fun x => x == col) with
  | some j => some (header.length - 1 - j)
  | none => none

/-- `row[col]` for a `csv.DictReader` row: `KeyError` (the `.error`
case) when the column is absent from the header; otherwise the value at
the column's last header occurrence, or `None` (`none`) when the row is
too short (`restval`). -/
def dictRowValue (header vals : List PyStr) (col : PyStr) :
    Except Unit (Option PyStr) :=
  match lastIndexOf col header with
  | none => .error ()
  | some i => .ok (vals.get? i)

/-- The body of `generate_migration_mapping`'s loop for one row: read
the key `row['Nexus_VLAN']` and the eight entry fields, failing with
`KeyError` when a column is missing from the header. -/
def rowEntry (header vals : List PyStr) :
    Except Unit (Option PyStr × MappingEntry) := do
  let vlanId ← dictRowValue header vals ("Nexus_VLAN").data
  let vlanName ← dictRowValue header vals ("VLAN_Name").data
  let tenant ← dictRowValue header vals ("ACI_Tenant").data
  let appProfile ← dictRowValue header vals ("ACI_Application_Profile").data
  let epg ← dictRowValue header vals ("ACI_EPG").data
  let bridgeDomain ← dictRowValue header vals ("ACI_Bridge_Domain").data
  let subnet ← dictRowValue header vals ("Subnet").data
  let priority ← dictRowValue header vals ("Migration_Priority").data
  let notes ← dictRowValue header vals ("Notes").data
  .ok (vlanId, ⟨vlanName, tenant, appProfile, epg, bridgeDomain, subnet,
    priority, notes⟩)

/-- Total version of `rowEntry`, meaningful when every required column
is present in the header. -/
def rowEntryD (header vals : List PyStr) : Option PyStr × MappingEntry :=
  (rowEntry header vals).toOption.getD (none, emptyEntry)

/-- The column names `generate_migration_mapping` reads from each row. -/
def requiredColumns : List PyStr :=
  [("Nexus_VLAN").data, ("VLAN_Name").data, ("ACI_Tenant").data,
   ("ACI_Application_Profile").data, ("ACI_EPG").data,
   ("ACI_Bridge_Domain").data, ("Subnet").data,
   ("Migration_Priority").data, ("Notes").data]

/-- Loop of `generate_migration_mapping` with its surrounding `try`: the
first row that raises stops the loop, and the `except` branch returns
the mapping accumulated so far; the boolean records whether the error
branch (a log line) was taken. -/
def mappingLoop (header : List PyStr) :
    List (List PyStr) → List (Option PyStr × MappingEntry) →
    List (Option PyStr × MappingEntry) × Bool
  | [], acc => (acc, false)
  | r :: rs, acc =>
    match rowEntry header r with
    | .ok (k, e) => mappingLoop header rs (dictInsert k e acc)
    | .error _ => (acc, true)

/-- `NexusConfigParser.generate_migration_mapping` on a table given as a
header row plus data rows (the file reading itself is the host
environment's job). -/
def generate_migration_mapping (header : List PyStr)
    (rows : List (List PyStr)) : List (Option PyStr × MappingEntry) × Bool :=
  mappingLoop header rows []

/-- VLAN-id keys of one device's config. -/
def vlanKeys (c : DeviceConfig) : List PyStr := c.vlans.map Prod.fst

/-- `switches_with_vlan` of `_check_vlan_consistency`: the devices, in
corpus key order, whose VLAN set contains the id. -/
def switchesWithVlan (corpus : List (PyStr × DeviceConfig)) (v : PyStr) :
    List PyStr :=
  (corpus.filter (fun p => (vlanKeys p.2).contains v)).map Prod.fst

/-- One entry of the `inconsistent_vlans` list. -/
structure ConsistencyEntry where
  vlan : PyStr
  missing_from : List PyStr
deriving DecidableEq

/-- Result of `_check_vlan_consistency` (`status` plus the `details`
payload). -/
structure ConsistencyResult where
  status : PyStr
  total_vlans : Nat
  inconsistent_vlans : List ConsistencyEntry
deriving DecidableEq

/-- `MigrationValidator._check_vlan_consistency`: the union of all VLAN
ids (a Python `set`, modelled as the deduplicated list in first-seen
order — no property below depends on the set's iteration order), and
for each id present on strictly fewer devices than the corpus has, an
entry listing the devices lacking it in corpus key order. -/
def check_vlan_consistency (corpus : List (PyStr × DeviceConfig)) :
    ConsistencyResult :=
  let allVlans := (corpus.flatMap (fun p => vlanKeys p.2)).dedup
  let inconsistent := allVlans.filterMap (fun v =>
    if (switchesWithVlan corpus v).length ≠ corpus.length then
      some ⟨v, (corpus.map Prod.fst).filter
        (fun s => !(switchesWithVlan corpus v).contains s)⟩
    else none)
  { status := if inconsistent = [] then ("pass").data else ("warning").data,
    total_vlans := allVlans.length,
    inconsistent_vlans := inconsistent }

/-- The `checks` dictionary of `pre_migration_check`, with its four
fixed keys as fields (statuses only; the `details` payloads carry no
information the claims mention beyond the consistency result, kept
whole in `vlan_consistency`). -/
structure ReadinessResult where
  fabric_health : PyStr
  config_parsing : PyStr
  vlan_consistency : ConsistencyResult
  migration_mapping : PyStr
  overall_status : PyStr
deriving DecidableEq

/-- The four individual check statuses, in the insertion order of the
source's `checks` dict. -/
def checkStatuses (r : ReadinessResult) : List PyStr :=
  [r.fabric_health, r.config_parsing, r.vlan_consistency.status,
   r.migration_mapping]

/-- The overall-status computation of `pre_migration_check` (source:
`failed_checks` comprehension plus the final conditional): `fail` when
some check status is `fail`, else `pass`. -/
def overallFromStatuses (statuses : List PyStr) : PyStr :=
  if statuses.any (fun s => s = ("fail").data) then ("fail").data
  else ("pass").data

/-- `MigrationValidator.pre_migration_check`: fabric health collapses to
`pass` exactly on `"healthy"`; config parsing passes iff the parsed
corpus dict is nonempty (Python truthiness); the mapping check passes
iff the loaded mapping is nonempty; overall is `fail` iff some check's
status is `fail`.  The fabric-health summary and the mapping table stand
in for the external collaborator's inputs. -/
def pre_migration_check (fabricOverallHealth : PyStr)
    (files : List (PyStr × List PyStr))
    (header : List PyStr) (rows : List (List PyStr)) : ReadinessResult :=
  let fh := if fabricOverallHealth = ("healthy").data
    then ("pass").data else ("fail").data
  let corpus := parse_all_configs files
  let cp := if corpus = [] then ("fail").data else ("pass").data
  let vc := check_vlan_consistency corpus
  let mapping := (generate_migration_mapping header rows).1
  let mm := if mapping = [] then ("fail").data else ("pass").data
  { fabric_health := fh, config_parsing := cp, vlan_consistency := vc,
    migration_mapping := mm,
    overall_status := overallFromStatuses [fh, cp, vc.status, mm] }

/-! Lemmas about the Python string primitives. -/

lemma dropWhile_of_forall_not {p : Char → Bool} {l : List Char}
    (h : ∀ c ∈ l, p c = false) : l.dropWhile p = l := by
  cases l with
  | nil => rfl
  | cons c cs => simp [List.dropWhile, h c (by simp)]

lemma pyStrip_eq_self {s : PyStr} (h : ∀ c ∈ s, c.isWhitespace = false) :
    pyStrip s = s := by
  unfold pyStrip
  rw [dropWhile_of_forall_not h, dropWhile_of_forall_not, List.reverse_reverse]
  intro c hc
  exact h c (by simpa using hc)

lemma pyStrip_append_of {p t : PyStr} (a : Char) (q : PyStr)
    (hp : p = a :: q) (ha : a.isWhitespace = false) (ht : t ≠ [])
    (htall : ∀ c ∈ t, c.isWhitespace = false) :
    pyStrip (p ++ t) = p ++ t := by
  subst hp
  unfold pyStrip
  have h1 : ((a :: q) ++ t).dropWhile Char.isWhitespace = (a :: q) ++ t := by
    simp [List.dropWhile, ha]
  rw [h1]
  obtain ⟨c, cs, hrev⟩ : ∃ c cs, t.reverse = c :: cs := by
    cases hr : t.reverse with
    | nil => exact absurd (by simpa using hr) ht
    | cons c cs => exact ⟨c, cs, rfl⟩
  have hc : c ∈ t := by
    have : c ∈ t.reverse := by rw [hrev]; simp
    simpa using this
  rw [List.reverse_append, hrev]
  have ht2 : cs.reverse ++ [c] = t := by
    have h2 := congrArg List.reverse hrev
    simpa using h2.symm
  simp [List.dropWhile, htall c hc, ht2]

lemma splitWsAux_no_ws (t : List Char) :
    ∀ acc, (∀ c ∈ t, c.isWhitespace = false) → acc.reverse ++ t ≠ [] →
      splitWsAux t acc = [acc.reverse ++ t] := by
  induction t with
  | nil =>
    intro acc _ hne
    have hacc : acc ≠ [] := by
      intro h; apply hne; simp [h]
    simp [splitWsAux, hacc]
  | cons c cs ih =>
    intro acc hws hne
    have hc : c.isWhitespace = false := hws c (by simp)
    have := ih (c :: acc) (fun x hx => hws x (by simp [hx])) (by simp)
    simp only [splitWsAux, hc, Bool.false_eq_true, if_false, this]
    simp

lemma splitWsAux_token_then_ws (kw : List Char) (t : List Char) :
    ∀ acc, (∀ c ∈ kw, c.isWhitespace = false) → acc.reverse ++ kw ≠ [] →
      splitWsAux (kw ++ ' ' :: t) acc =
        (acc.reverse ++ kw) :: splitWsAux t [] := by
  induction kw with
  | nil =>
    intro acc _ hne
    have hacc : acc ≠ [] := by
      intro h; apply hne; simp [h]
    simp [splitWsAux, hacc]
  | cons c cs ih =>
    intro acc hws hne
    have hc : c.isWhitespace = false := hws c (by simp)
    simp only [List.cons_append, splitWsAux, hc, Bool.false_eq_true, if_false,
      List.append_eq]
    rw [ih (c :: acc) (fun x hx => hws x (by simp [hx])) (by simp)]
    simp

lemma pySplitWs_keyword (kw t : PyStr) (hkw : ∀ c ∈ kw, c.isWhitespace = false)
    (hkwne : kw ≠ []) (ht : ∀ c ∈ t, c.isWhitespace = false) (htne : t ≠ []) :
    pySplitWs (kw ++ ' ' :: t) = [kw, t] := by
  unfold pySplitWs
  rw [splitWsAux_token_then_ws kw t [] hkw (by simpa using hkwne)]
  rw [splitWsAux_no_ws t [] ht (by simpa using htne)]
  simp

lemma pySplitOn_no_sep {sep : Char} {s : PyStr} (h : ∀ c ∈ s, c ≠ sep) :
    pySplitOn sep s = [s] := by
  induction s with
  | nil => rfl
  | cons c cs ih =>
    have hc : ¬ (c = sep) := h c (by simp)
    rw [pySplitOn]
    simp only [hc, if_false]
    rw [ih (fun x hx => h x (by simp [hx]))]

lemma pySplitOn_append_sep {sep : Char} {a : PyStr} (b : PyStr)
    (h : ∀ c ∈ a, c ≠ sep) :
    pySplitOn sep (a ++ sep :: b) = a :: pySplitOn sep b := by
  induction a with
  | nil => simp [pySplitOn]
  | cons c cs ih =>
    have hc : ¬ (c = sep) := h c (by simp)
    rw [List.cons_append, pySplitOn]
    simp only [hc, if_false]
    rw [ih (fun x hx => h x (by simp [hx]))]

lemma pyStartsWith_append_self (p r : PyStr) :
    pyStartsWith (p ++ r) p = true := by
  induction p with
  | nil => simp [pyStartsWith]
  | cons c cs ih => simp [pyStartsWith, ih]

lemma pyStartsWith_cons_cons (a b : Char) (as_ bs : PyStr) :
    pyStartsWith (a :: as_) (b :: bs) = (a == b && pyStartsWith as_ bs) := rfl

/-! Lemmas about decimal rendering and parsing. -/

lemma digitChar_isDigit {d : Nat} (h : d < 10) : (digitChar d).isDigit = true := by
  interval_cases d <;> decide

lemma natToStrAux_digits : ∀ fuel n, n < fuel →
    ∀ c ∈ natToStrAux fuel n, c.isDigit = true := by
  intro fuel
  induction fuel with
  | zero => intro n h; omega
  | succ fuel ih =>
    intro n h c hc
    rw [natToStrAux] at hc
    by_cases h10 : n < 10
    · simp [h10] at hc
      subst hc
      exact digitChar_isDigit h10
    · simp [h10] at hc
      rcases hc with hc | hc
      · exact ih (n / 10) (by omega) c hc
      · subst hc
        exact digitChar_isDigit (Nat.mod_lt _ (by omega))

lemma natToStr_digits (n : Nat) : ∀ c ∈ natToStr n, c.isDigit = true :=
  natToStrAux_digits (n + 1) n (Nat.lt_succ_self n)

lemma isDigit_isWhitespace_false {c : Char} (h : c.isDigit = true) :
    c.isWhitespace = false := by
  by_contra h2
  have h3 : c.isWhitespace = true := by
    cases h4 : c.isWhitespace
    · exact absurd h4 h2
    · rfl
  have h5 : c = ' ' ∨ c = '\t' ∨ c = '\r' ∨ c = '\n' := by
    simp [Char.isWhitespace] at h3
    tauto
  rcases h5 with rfl | rfl | rfl | rfl <;> simp_all

lemma isDigit_ne {c : Char} (h : c.isDigit = true) (d : Char)
    (hd : d.isDigit = false) : c ≠ d := by
  rintro rfl
  rw [h] at hd
  exact Bool.noConfusion hd

lemma natToStrAux_ne_nil : ∀ fuel n, n < fuel → natToStrAux fuel n ≠ [] := by
  intro fuel
  cases fuel with
  | zero => intro n h; omega
  | succ fuel =>
    intro n h
    rw [natToStrAux]
    by_cases h10 : n < 10 <;> simp [h10]

lemma natToStr_ne_nil (n : Nat) : natToStr n ≠ [] :=
  natToStrAux_ne_nil (n + 1) n (Nat.lt_succ_self n)

lemma digitsToNat_append_digit (a : List Char) (c : Char) :
    digitsToNat (a ++ [c]) = digitsToNat a * 10 + (c.toNat - 48) := by
  simp [digitsToNat, List.foldl_append]

lemma digitsToNat_digitChar {d : Nat} (h : d < 10) :
    digitsToNat [digitChar d] = d := by
  interval_cases d <;> decide

lemma digitsToNat_natToStrAux : ∀ fuel n, n < fuel →
    digitsToNat (natToStrAux fuel n) = n := by
  intro fuel
  induction fuel with
  | zero => intro n h; omega
  | succ fuel ih =>
    intro n h
    rw [natToStrAux]
    by_cases h10 : n < 10
    · simp only [h10, if_true]
      exact digitsToNat_digitChar h10
    · simp only [h10, if_false]
      rw [digitsToNat_append_digit, ih (n / 10) (by omega)]
      have hm : n % 10 < 10 := Nat.mod_lt _ (by omega)
      have : (digitChar (n % 10)).toNat - 48 = n % 10 := by
        generalize hd : n % 10 = d at hm
        interval_cases d <;> decide
      rw [this]
      omega

lemma digitsToNat_natToStr (n : Nat) : digitsToNat (natToStr n) = n :=
  digitsToNat_natToStrAux (n + 1) n (Nat.lt_succ_self n)

lemma pyIntNat_natToStr (n : Nat) : pyIntNat (natToStr n) = some n := by
  unfold pyIntNat
  have hdig := natToStr_digits n
  have hne := natToStr_ne_nil n
  have hstrip : pyStrip (natToStr n) = natToStr n :=
    pyStrip_eq_self (fun c hc => isDigit_isWhitespace_false (hdig c hc))
  rw [hstrip]
  obtain ⟨c, rest, hcr⟩ : ∃ c rest, natToStr n = c :: rest := by
    cases h : natToStr n with
    | nil => exact absurd h hne
    | cons c rest => exact ⟨c, rest, rfl⟩
  rw [hcr]
  have hcd : c.isDigit = true := hdig c (by rw [hcr]; simp)
  have hcne : ¬ (c = '+') := isDigit_ne hcd '+' (by decide)
  simp only [hcne, if_false]
  have hall : (c :: rest).all Char.isDigit = true := by
    rw [← hcr]
    simpa [List.all_eq_true] using hdig
  rw [← hcr]
  simp only [List.all_eq_true] at hall
  have : (natToStr n ≠ [] ∧ ∀ x ∈ natToStr n, x.isDigit = true) := ⟨hne, by
    intro x hx
    apply hdig x
    exact hx⟩
  rw [if_pos]
  · rw [digitsToNat_natToStr]
  · constructor
    · exact hne
    · simpa [List.all_eq_true] using hdig

lemma natToStr_inj {a b : Nat} (h : natToStr a = natToStr b) : a = b := by
  have := digitsToNat_natToStr a
  rw [h, digitsToNat_natToStr] at this
  omega

lemma natToStr_ne_comma (n : Nat) : ∀ c ∈ natToStr n, c ≠ ',' :=
  fun c hc => isDigit_ne (natToStr_digits n c hc) ',' (by decide)

lemma natToStr_ne_hyphen (n : Nat) : ∀ c ∈ natToStr n, c ≠ '-' :=
  fun c hc => isDigit_ne (natToStr_digits n c hc) '-' (by decide)

/-! Lemmas about the dict model and the parse loop. -/

section DictLemmas

variable {κ : Type} {α : Type} [DecidableEq κ]

lemma dictLookup_dictInsert (k k' : κ) (v : α) (d : List (κ × α)) :
    dictLookup k (dictInsert k' v d) =
      if k' = k then some v else dictLookup k d := by
  induction d with
  | nil =>
    by_cases h : k' = k <;> simp [dictInsert, dictLookup, h]
  | cons p ps ih =>
    rw [dictInsert]
    by_cases hp : p.1 = k'
    · rw [if_pos hp]
      by_cases h : k' = k
      · simp [dictLookup, h]
      · have hpk : ¬ p.1 = k := by rw [hp]; exact h
        simp [dictLookup, h, hpk]
    · rw [if_neg hp]
      by_cases h : p.1 = k
      · by_cases h2 : k' = k
        · exact absurd (h.trans h2.symm) hp
        · simp [dictLookup, h, h2]
      · simp [dictLookup, h, ih]

lemma dictInsert_append_fresh (k : κ) (v : α) (d : List (κ × α))
    (h : ∀ p ∈ d, p.1 ≠ k) : dictInsert k v d = d ++ [(k, v)] := by
  induction d with
  | nil => rfl
  | cons p ps ih =>
    rw [dictInsert]
    simp only [h p (by simp), if_false]
    rw [ih (fun q hq => h q (by simp [hq]))]
    rfl

lemma dictUpdate_id (k : κ) (f : α → α) :
    ∀ d : List (κ × α), (∀ p ∈ d, p.1 ≠ k) → dictUpdate k f d = d := by
  intro d
  induction d with
  | nil => intro h; rfl
  | cons p ps ih =>
    intro h
    unfold dictUpdate at ih ⊢
    rw [List.map_cons, if_neg (h p (by simp)), ih (fun q hq => h q (by simp [hq]))]

lemma dictUpdate_append_last (k : κ) (f : α → α) (d : List (κ × α)) (r : α)
    (h : ∀ p ∈ d, p.1 ≠ k) :
    dictUpdate k f (d ++ [(k, r)]) = d ++ [(k, f r)] := by
  unfold dictUpdate
  rw [List.map_append]
  have h1 : dictUpdate k f d = d := dictUpdate_id k f d h
  unfold dictUpdate at h1
  rw [h1]
  simp

lemma lastAssoc_append (k : κ) (ps qs : List (κ × α)) :
    lastAssoc k (ps ++ qs) =
      match lastAssoc k qs with
      | some v => some v
      | none => lastAssoc k ps := by
  induction ps with
  | nil => cases h : lastAssoc k qs <;> simp [lastAssoc, h]
  | cons p ps ih =>
    rw [List.cons_append, lastAssoc, ih, lastAssoc]
    cases lastAssoc k qs <;> cases lastAssoc k ps <;> simp

lemma dictLookup_foldl_dictInsert (ps : List (κ × α)) :
    ∀ (acc : List (κ × α)) (k : κ),
      dictLookup k (ps.foldl (fun d p => dictInsert p.1 p.2 d) acc) =
        match lastAssoc k ps with
        | some v => some v
        | none => dictLookup k acc := by
  induction ps with
  | nil => intro acc k; simp [lastAssoc]
  | cons p ps ih =>
    intro acc k
    rw [List.foldl_cons, ih, lastAssoc]
    cases hps : lastAssoc k ps with
    | some v => rfl
    | none =>
      rw [dictLookup_dictInsert]
      by_cases h : p.1 = k <;> simp [h]

lemma lastAssoc_mem_keys {k : κ} : ∀ {ps : List (κ × α)} {v : α},
    lastAssoc k ps = some v → k ∈ ps.map Prod.fst := by
  intro ps
  induction ps with
  | nil => intro v h; simp [lastAssoc] at h
  | cons p ps ih =>
    intro v h
    rw [lastAssoc] at h
    cases h2 : lastAssoc k ps with
    | some u =>
      simp only [List.map_cons, List.mem_cons]
      right
      exact ih h2
    | none =>
      rw [h2] at h
      by_cases h3 : p.1 = k
      · simp [← h3]
      · simp [h3] at h

lemma lastAssoc_of_nodup_mem {ps : List (κ × α)} {k : κ} {v : α}
    (hnd : (ps.map Prod.fst).Nodup) (hm : (k, v) ∈ ps) :
    lastAssoc k ps = some v := by
  induction ps with
  | nil => simp at hm
  | cons p ps ih =>
    rw [List.map_cons, List.nodup_cons] at hnd
    rcases List.mem_cons.mp hm with heq | hm2
    · cases heq
      rw [lastAssoc]
      cases hla : lastAssoc k ps with
      | some w => exact absurd (lastAssoc_mem_keys hla) hnd.1
      | none => simp
    · rw [lastAssoc, ih hnd.2 hm2]

end DictLemmas

lemma runLines_append_of_ok {st st' : ParseState} {pre : List PyStr}
    (h : runLinesE st pre = .ok st') (suf : List PyStr) :
    runLines st (pre ++ suf) = runLines st' suf := by
  induction pre generalizing st with
  | nil =>
    rw [runLinesE] at h
    cases h
    rfl
  | cons l ls ih =>
    rw [runLinesE] at h
    rw [List.cons_append, runLines]
    cases hp : parseLine st l with
    | ok st2 =>
      rw [hp] at h
      exact ih h
    | error e =>
      rw [hp] at h
      cases h

lemma runLines_cons_error {st : ParseState} {l : PyStr}
    (h : parseLine st l = .error ()) (rest : List PyStr) :
    runLines st (l :: rest) = st := by
  rw [runLines, h]

/-! Claim theorems. -/

/-- C5: for every set of check results produced by the pre-migration
aggregation, the overall verdict is `fail` if and only if at least one
individual check status is `fail`, and `pass` otherwise; in particular a
result set containing `warning` statuses but no `fail` yields overall
`pass`. -/
lemma overallFromStatuses_spec (l : List PyStr) :
    (overallFromStatuses l = ("fail").data ↔ ∃ s ∈ l, s = ("fail").data) ∧
    (overallFromStatuses l = ("fail").data ∨
      overallFromStatuses l = ("pass").data) := by
  unfold overallFromStatuses
  by_cases h : (l.any (fun s => s = ("fail").data)) = true
  · rw [if_pos h]
    simp only [List.any_eq_true, decide_eq_true_eq] at h
    exact ⟨⟨fun _ => h, fun _ => rfl⟩, Or.inl rfl⟩
  · rw [if_neg h]
    simp only [List.any_eq_true, decide_eq_true_eq] at h
    refine ⟨⟨fun hc => absurd hc (by decide), fun he => absurd he h⟩, Or.inr rfl⟩

theorem C5_overall_fail_iff_some_check_fail (fh : PyStr)
    (files : List (PyStr × List PyStr)) (header : List PyStr)
    (rows : List (List PyStr)) :
    ((pre_migration_check fh files header rows).overall_status = ("fail").data ↔
      ∃ s ∈ checkStatuses (pre_migration_check fh files header rows),
        s = ("fail").data) ∧
    ((pre_migration_check fh files header rows).overall_status = ("fail").data ∨
      (pre_migration_check fh files header rows).overall_status = ("pass").data) := by
  simp only [pre_migration_check, checkStatuses]
  exact overallFromStatuses_spec _

/-- C10: an empty parsed corpus makes the `config_parsing` check fail
(its status is `pass` iff at least one file was parsed), an empty
migration mapping makes the `migration_mapping` check fail, an empty
corpus forces the overall verdict to `fail`, and the consistency check
on the empty corpus reports `pass`. -/
theorem C10_empty_inputs_fail (fh : PyStr)
    (files : List (PyStr × List PyStr)) (header : List PyStr)
    (rows : List (List PyStr)) :
    ((pre_migration_check fh files header rows).config_parsing = ("pass").data ↔
      parse_all_configs files ≠ []) ∧
    ((generate_migration_mapping header rows).1 = [] →
      (pre_migration_check fh files header rows).migration_mapping = ("fail").data) ∧
    (parse_all_configs files = [] →
      (pre_migration_check fh files header rows).overall_status = ("fail").data) ∧
    (check_vlan_consistency []).status = ("pass").data := by
  refine ⟨?_, ?_, ?_, by decide⟩
  · simp only [pre_migration_check]
    by_cases h : parse_all_configs files = []
    · rw [if_pos h]
      exact ⟨fun hc => absurd hc (by decide), fun hn => absurd h hn⟩
    · rw [if_neg h]
      exact ⟨fun _ => h, fun _ => rfl⟩
  · intro h
    simp only [pre_migration_check]
    rw [h]
    simp
  · intro h
    simp only [pre_migration_check]
    rw [h]
    apply (overallFromStatuses_spec _).1.mpr
    refine ⟨("fail").data, ?_, rfl⟩
    simp

/-- Closed instance of `C10_empty_inputs_fail`: with no files and an
empty table, config parsing fails, the mapping check fails, and the
overall verdict is `fail`. -/
theorem C10_empty_inputs_fail_witness :
    (pre_migration_check ("healthy").data [] [] []).migration_mapping =
      ("fail").data ∧
    (pre_migration_check ("healthy").data [] [] []).overall_status =
      ("fail").data :=
  ⟨(C10_empty_inputs_fail ("healthy").data [] [] []).2.1 (by decide),
   (C10_empty_inputs_fail ("healthy").data [] [] []).2.2.1 (by decide)⟩

section DictLookupLemmas

variable {κ : Type} {α : Type} [DecidableEq κ]

lemma mem_of_dictLookup_some {l : List (κ × α)} {k : κ} {v : α}
    (h : dictLookup k l = some v) : (k, v) ∈ l := by
  induction l with
  | nil => simp [dictLookup] at h
  | cons p ps ih =>
    rw [dictLookup] at h
    by_cases hp : p.1 = k
    · rw [if_pos hp] at h
      cases h
      obtain ⟨a, b⟩ := p
      simp only at hp
      subst hp
      exact List.mem_cons_self _ _
    · rw [if_neg hp] at h
      exact List.mem_cons_of_mem _ (ih h)

lemma dictLookup_some_of_mem_nodup {l : List (κ × α)} {k : κ} {v : α}
    (hnd : (l.map Prod.fst).Nodup) (hm : (k, v) ∈ l) :
    dictLookup k l = some v := by
  induction l with
  | nil => simp at hm
  | cons p ps ih =>
    rw [List.map_cons, List.nodup_cons] at hnd
    rcases List.mem_cons.mp hm with heq | hm2
    · cases heq
      rw [dictLookup, if_pos rfl]
    · have hp : ¬ p.1 = k := by
        rintro rfl
        exact hnd.1 (List.mem_map.mpr ⟨(p.1, v), hm2, rfl⟩)
      rw [dictLookup, if_neg hp]
      exact ih hnd.2 hm2

lemma contains_eq_decide_mem {β : Type} [DecidableEq β] [BEq β] [LawfulBEq β]
    (l : List β) (a : β) : l.contains a = decide (a ∈ l) := by
  simp [List.contains]

end DictLookupLemmas

/-- C3: the consistency report lists a VLAN id as inconsistent iff the
number of devices possessing it is strictly less than the total device
count; `missing_from` holds exactly the devices lacking it; the status
is `pass` iff the inconsistency list is empty and `warning` otherwise —
never `fail`. -/
theorem C3_consistency_check_spec (corpus : List (PyStr × DeviceConfig))
    (hnd : (corpus.map Prod.fst).Nodup) (v : PyStr) :
    ((∃ e ∈ (check_vlan_consistency corpus).inconsistent_vlans, e.vlan = v) ↔
      (∃ p ∈ corpus, v ∈ vlanKeys p.2) ∧
        (corpus.filter (fun p => (vlanKeys p.2).contains v)).length <
          corpus.length) ∧
    (∀ e ∈ (check_vlan_consistency corpus).inconsistent_vlans, ∀ d : PyStr,
      (d ∈ e.missing_from ↔
        ∃ c, dictLookup d corpus = some c ∧ e.vlan ∉ vlanKeys c)) ∧
    ((check_vlan_consistency corpus).inconsistent_vlans = [] ↔
      (check_vlan_consistency corpus).status = ("pass").data) ∧
    ((check_vlan_consistency corpus).status = ("pass").data ∨
      (check_vlan_consistency corpus).status = ("warning").data) := by
  have hsw : ∀ w : PyStr, (switchesWithVlan corpus w).length =
      (corpus.filter (fun p => (vlanKeys p.2).contains w)).length := by
    intro w
    unfold switchesWithVlan
    rw [List.length_map]
  have hswmem : ∀ (w : PyStr) (d : PyStr), d ∈ switchesWithVlan corpus w ↔
      ∃ p ∈ corpus, p.1 = d ∧ w ∈ vlanKeys p.2 := by
    intro w d
    unfold switchesWithVlan
    simp only [List.mem_map, List.mem_filter, contains_eq_decide_mem,
      decide_eq_true_eq]
    constructor
    · rintro ⟨p, ⟨hp, hw⟩, rfl⟩
      exact ⟨p, hp, rfl, hw⟩
    · rintro ⟨p, hp, rfl, hw⟩
      exact ⟨p, ⟨hp, hw⟩, rfl⟩
  refine ⟨?_, ?_, ?_, ?_⟩
  · simp only [check_vlan_consistency, List.mem_filterMap]
    constructor
    · rintro ⟨e, ⟨a, ha, hfa⟩, hev⟩
      by_cases hcond : (switchesWithVlan corpus a).length ≠ corpus.length
      · rw [if_pos hcond] at hfa
        cases hfa
        dsimp only at hev
        subst hev
        rw [List.mem_dedup, List.mem_flatMap] at ha
        obtain ⟨p, hp, hvp⟩ := ha
        refine ⟨⟨p, hp, hvp⟩, ?_⟩
        rw [← hsw]
        have hle : (switchesWithVlan corpus a).length ≤ corpus.length := by
          rw [hsw]
          exact List.length_filter_le _ _
        omega
      · rw [if_neg hcond] at hfa
        cases hfa
    · rintro ⟨⟨p, hp, hvp⟩, hlt⟩
      have hcond : (switchesWithVlan corpus v).length ≠ corpus.length := by
        rw [hsw]
        omega
      refine ⟨_, ⟨v, ?_, if_pos hcond⟩, rfl⟩
      rw [List.mem_dedup, List.mem_flatMap]
      exact ⟨p, hp, hvp⟩
  · simp only [check_vlan_consistency, List.mem_filterMap]
    rintro e ⟨a, ha, hfa⟩ d
    by_cases hcond : (switchesWithVlan corpus a).length ≠ corpus.length
    · rw [if_pos hcond] at hfa
      cases hfa
      dsimp only
      simp only [List.mem_filter, List.mem_map, Bool.not_eq_true',
        contains_eq_decide_mem, decide_eq_false_iff_not]
      constructor
      · rintro ⟨⟨p, hp, rfl⟩, hnot⟩
        refine ⟨p.2, dictLookup_some_of_mem_nodup hnd ?_, ?_⟩
        · obtain ⟨x, y⟩ := p
          exact hp
        · intro hva
          exact hnot ((hswmem a p.1).mpr ⟨p, hp, rfl, hva⟩)
      · rintro ⟨c, hl, hna⟩
        have hm : (d, c) ∈ corpus := mem_of_dictLookup_some hl
        refine ⟨⟨(d, c), hm, rfl⟩, ?_⟩
        intro hin
        obtain ⟨q, hq, hqd, hqa⟩ := (hswmem a d).mp hin
        have hq2 : (d, q.2) ∈ corpus := by
          obtain ⟨x, y⟩ := q
          simp only at hqd
          subst hqd
          exact hq
        have hl2 : dictLookup d corpus = some q.2 :=
          dictLookup_some_of_mem_nodup hnd hq2
        rw [hl] at hl2
        cases hl2
        exact hna hqa
    · rw [if_neg hcond] at hfa
      cases hfa
  · simp only [check_vlan_consistency]
    split
    · rename_i h
      exact ⟨fun _ => rfl, fun _ => h⟩
    · rename_i h
      exact ⟨fun hc => absurd hc h, fun hc => absurd hc (by decide)⟩
  · simp only [check_vlan_consistency]
    split
    · left; rfl
    · right; rfl

/-- Closed instance of `C3_consistency_check_spec`: three devices with
VLAN 50 on two of them produce an inconsistency entry for 50, with
status `warning`. -/
theorem C3_consistency_check_spec_witness :
    (∃ e ∈ (check_vlan_consistency
        [(("swA").data, { vlans := [(("50").data, ⟨("V").data⟩)] }),
         (("swB").data, { vlans := [(("50").data, ⟨("V").data⟩)] }),
         (("swC").data, { vlans := [] })]).inconsistent_vlans,
      e.vlan = ("50").data) ∧
    (check_vlan_consistency
        [(("swA").data, { vlans := [(("50").data, ⟨("V").data⟩)] }),
         (("swB").data, { vlans := [(("50").data, ⟨("V").data⟩)] }),
         (("swC").data, { vlans := [] })]).status = ("warning").data := by
  have h := C3_consistency_check_spec
    [(("swA").data, { vlans := [(("50").data, ⟨("V").data⟩)] }),
     (("swB").data, { vlans := [(("50").data, ⟨("V").data⟩)] }),
     (("swC").data, { vlans := [] })] (by decide) (("50").data)
  refine ⟨h.1.mpr ⟨⟨(("swA").data, { vlans := [(("50").data, ⟨("V").data⟩)] }),
    by decide, by decide⟩, by decide⟩, ?_⟩
  rcases h.2.2.2 with h4 | h4
  · exfalso
    have h5 := h.2.2.1.mpr h4
    revert h5
    decide
  · exact h4

/-- C9 counterexample: with the corpus loaded in key order
`swB, swA, swC` and VLAN 50 present only on `swC`, the reported
`missing_from` is `[swB, swA]` — not sorted by device id — and loading
the same configs in the order `swA, swB, swC` yields `[swA, swB]`
instead, so the order depends on the load order. -/
theorem C9_counterexample :
    (check_vlan_consistency
        [(("swB").data, {}), (("swA").data, {}),
         (("swC").data, { vlans := [(("50").data, ⟨("V").data⟩)] })]).inconsistent_vlans =
      [⟨("50").data, [("swB").data, ("swA").data]⟩] ∧
    (check_vlan_consistency
        [(("swA").data, {}), (("swB").data, {}),
         (("swC").data, { vlans := [(("50").data, ⟨("V").data⟩)] })]).inconsistent_vlans =
      [⟨("50").data, [("swA").data, ("swB").data]⟩] := by
  decide

/-- C9 amended: each inconsistency entry's `missing_from` lists the
devices lacking the VLAN in corpus key (load) order — it is the
corresponding filtered sublist of the corpus keys, hence depends on the
order in which configuration files were loaded and is not sorted by
device id. -/
theorem C9_missing_from_corpus_order (corpus : List (PyStr × DeviceConfig)) :
    ∀ e ∈ (check_vlan_consistency corpus).inconsistent_vlans,
      e.missing_from.Sublist (corpus.map Prod.fst) ∧
      e.missing_from = (corpus.map Prod.fst).filter
        (fun s => !(switchesWithVlan corpus e.vlan).contains s) := by
  simp only [check_vlan_consistency, List.mem_filterMap]
  rintro e ⟨a, ha, hfa⟩
  by_cases hcond : (switchesWithVlan corpus a).length ≠ corpus.length
  · rw [if_pos hcond] at hfa
    cases hfa
    exact ⟨List.filter_sublist _, rfl⟩
  · rw [if_neg hcond] at hfa
    cases hfa

/-- Closed instance of `C9_missing_from_corpus_order` at the
counterexample corpus. -/
theorem C9_missing_from_corpus_order_witness :
    (⟨("50").data, [("swB").data, ("swA").data]⟩ :
        ConsistencyEntry).missing_from.Sublist
      ([(("swB").data, ({} : DeviceConfig)), (("swA").data, {}),
        (("swC").data, { vlans := [(("50").data, ⟨("V").data⟩)] })].map
          Prod.fst) :=
  (C9_missing_from_corpus_order
    [(("swB").data, {}), (("swA").data, {}),
     (("swC").data, { vlans := [(("50").data, ⟨("V").data⟩)] })]
    ⟨("50").data, [("swB").data, ("swA").data]⟩ (by decide)).1

lemma lastIndexOf_eq_none_iff {col : PyStr} {header : List PyStr} :
    lastIndexOf col header = none ↔ col ∉ header := by
  constructor
  · intro h hc
    unfold lastIndexOf at h
    cases hfi : header.reverse.findIdx? (fun x => x == col) with
    | some j => rw [hfi] at h; cases h
    | none =>
      rw [List.findIdx?_eq_none_iff] at hfi
      have h2 := hfi col (by simpa using hc)
      simp at h2
  · intro h
    unfold lastIndexOf
    have h2 : header.reverse.findIdx? (fun x => x == col) = none := by
      rw [List.findIdx?_eq_none_iff]
      intro x hx
      rw [beq_eq_false_iff_ne]
      rintro rfl
      exact h (by simpa using hx)
    rw [h2]

lemma rowEntry_error_of_missing {header : List PyStr} (vals : List PyStr)
    {col : PyStr} (hcol : col ∈ requiredColumns) (hno : col ∉ header) :
    rowEntry header vals = .error () := by
  have hna : lastIndexOf col header = none := lastIndexOf_eq_none_iff.mpr hno
  cases h : rowEntry header vals with
  | error e => cases e; rfl
  | ok x =>
    exfalso
    have hok : ∀ c ∈ requiredColumns, lastIndexOf c header ≠ none := by
      unfold rowEntry at h
      cases h1 : dictRowValue header vals (("Nexus_VLAN").data) with
      | error e => rw [h1] at h; cases h
      | ok v1 =>
      rw [h1] at h
      cases h2 : dictRowValue header vals (("VLAN_Name").data) with
      | error e => rw [h2] at h; cases h
      | ok v2 =>
      rw [h2] at h
      cases h3 : dictRowValue header vals (("ACI_Tenant").data) with
      | error e => rw [h3] at h; cases h
      | ok v3 =>
      rw [h3] at h
      cases h4 : dictRowValue header vals (("ACI_Application_Profile").data) with
      | error e => rw [h4] at h; cases h
      | ok v4 =>
      rw [h4] at h
      cases h5 : dictRowValue header vals (("ACI_EPG").data) with
      | error e => rw [h5] at h; cases h
      | ok v5 =>
      rw [h5] at h
      cases h6 : dictRowValue header vals (("ACI_Bridge_Domain").data) with
      | error e => rw [h6] at h; cases h
      | ok v6 =>
      rw [h6] at h
      cases h7 : dictRowValue header vals (("Subnet").data) with
      | error e => rw [h7] at h; cases h
      | ok v7 =>
      rw [h7] at h
      cases h8 : dictRowValue header vals (("Migration_Priority").data) with
      | error e => rw [h8] at h; cases h
      | ok v8 =>
      rw [h8] at h
      cases h9 : dictRowValue header vals (("Notes").data) with
      | error e => rw [h9] at h; cases h
      | ok v9 =>
      intro c hc
      have hval : ∀ (cc : PyStr) (vv : Option PyStr),
          dictRowValue header vals cc = .ok vv →
            lastIndexOf cc header ≠ none := by
        intro cc vv hcc hnone
        unfold dictRowValue at hcc
        rw [hnone] at hcc
        cases hcc
      simp only [requiredColumns, List.mem_cons, List.not_mem_nil,
        or_false] at hc
      rcases hc with rfl | rfl | rfl | rfl | rfl | rfl | rfl | rfl | rfl
      · exact hval _ _ h1
      · exact hval _ _ h2
      · exact hval _ _ h3
      · exact hval _ _ h4
      · exact hval _ _ h5
      · exact hval _ _ h6
      · exact hval _ _ h7
      · exact hval _ _ h8
      · exact hval _ _ h9
    exact hok col hcol hna

lemma rowEntry_ok_of_all_present {header : List PyStr} (vals : List PyStr)
    (h : ∀ c ∈ requiredColumns, c ∈ header) :
    rowEntry header vals = .ok (rowEntryD header vals) := by
  have hv : ∀ c ∈ requiredColumns, ∃ i,
      lastIndexOf c header = some i := by
    intro c hc
    cases hli : lastIndexOf c header with
    | none => exact absurd (lastIndexOf_eq_none_iff.mp hli) (by simp [h c hc])
    | some i => exact ⟨i, rfl⟩
  have hd : ∀ c ∈ requiredColumns, ∃ v,
      dictRowValue header vals c = .ok v := by
    intro c hc
    obtain ⟨i, hi⟩ := hv c hc
    exact ⟨vals.get? i, by unfold dictRowValue; rw [hi]⟩
  obtain ⟨w1, hw1⟩ := hd (("Nexus_VLAN").data) (by simp [requiredColumns])
  obtain ⟨w2, hw2⟩ := hd (("VLAN_Name").data) (by simp [requiredColumns])
  obtain ⟨w3, hw3⟩ := hd (("ACI_Tenant").data) (by simp [requiredColumns])
  obtain ⟨w4, hw4⟩ := hd (("ACI_Application_Profile").data)
    (by simp [requiredColumns])
  obtain ⟨w5, hw5⟩ := hd (("ACI_EPG").data) (by simp [requiredColumns])
  obtain ⟨w6, hw6⟩ := hd (("ACI_Bridge_Domain").data)
    (by simp [requiredColumns])
  obtain ⟨w7, hw7⟩ := hd (("Subnet").data) (by simp [requiredColumns])
  obtain ⟨w8, hw8⟩ := hd (("Migration_Priority").data)
    (by simp [requiredColumns])
  obtain ⟨w9, hw9⟩ := hd (("Notes").data) (by simp [requiredColumns])
  have hre : rowEntry header vals =
      .ok (w1, ⟨w2, w3, w4, w5, w6, w7, w8, w9⟩) := by
    unfold rowEntry
    rw [hw1, hw2, hw3, hw4, hw5, hw6, hw7, hw8, hw9]
    rfl
  rw [hre]
  unfold rowEntryD
  rw [hre]
  rfl

lemma mappingLoop_error_first {header : List PyStr} {r : List PyStr}
    (rs : List (List PyStr)) (acc : List (Option PyStr × MappingEntry))
    (h : rowEntry header r = .error ()) :
    mappingLoop header (r :: rs) acc = (acc, true) := by
  rw [mappingLoop, h]

lemma mappingLoop_all_ok {header : List PyStr} (rows : List (List PyStr))
    (h : ∀ r ∈ rows, rowEntry header r = .ok (rowEntryD header r)) :
    ∀ acc, mappingLoop header rows acc =
      ((rows.map (fun r => rowEntryD header r)).foldl
        (fun d p => dictInsert p.1 p.2 d) acc, false) := by
  induction rows with
  | nil => intro acc; rfl
  | cons r rs ih =>
    intro acc
    rw [mappingLoop, h r (by simp)]
    rcases hp : rowEntryD header r with ⟨k, e⟩
    dsimp only
    rw [List.map_cons, List.foldl_cons, hp]
    exact ih (fun q hq => h q (by simp [hq])) (dictInsert k e acc)

/-- C7: when the table header lacks a required column (for example
`Subnet`), the mapping loader signals the error (for any nonempty row
set) and the resulting mapping is empty, never partial; with a valid
header, the mapping's value for a VLAN id is the entry of the last row
carrying that id. -/
theorem C7_mapping_loader_spec :
    (∀ (header : List PyStr) (rows : List (List PyStr)) (col : PyStr),
      col ∈ requiredColumns → col ∉ header →
        (generate_migration_mapping header rows).1 = [] ∧
        (rows ≠ [] → (generate_migration_mapping header rows).2 = true)) ∧
    (∀ (header : List PyStr) (rows : List (List PyStr)),
      (∀ c ∈ requiredColumns, c ∈ header) →
      (generate_migration_mapping header rows).2 = false ∧
      ∀ v : Option PyStr,
        dictLookup v (generate_migration_mapping header rows).1 =
          lastAssoc v (rows.map (fun r => rowEntryD header r))) := by
  constructor
  · intro header rows col hcol hno
    cases rows with
    | nil => exact ⟨rfl, fun h => absurd rfl h⟩
    | cons r rs =>
      unfold generate_migration_mapping
      rw [mappingLoop_error_first rs [] (rowEntry_error_of_missing r hcol hno)]
      exact ⟨rfl, fun _ => rfl⟩
  · intro header rows hall
    have hok : ∀ r ∈ rows, rowEntry header r = .ok (rowEntryD header r) :=
      fun r _ => rowEntry_ok_of_all_present r hall
    unfold generate_migration_mapping
    rw [mappingLoop_all_ok rows hok []]
    refine ⟨rfl, fun v => ?_⟩
    rw [dictLookup_foldl_dictInsert]
    cases lastAssoc v (rows.map (fun r => rowEntryD header r)) <;> rfl

/-- Closed instance of `C7_mapping_loader_spec`: a header missing
`Subnet` with one row yields an empty mapping and the error flag; a full
header with two rows for VLAN 10 keeps the second row's entry. -/
theorem C7_mapping_loader_spec_witness :
    ((generate_migration_mapping
        [("Nexus_VLAN").data, ("VLAN_Name").data, ("ACI_Tenant").data,
         ("ACI_Application_Profile").data, ("ACI_EPG").data,
         ("ACI_Bridge_Domain").data, ("Migration_Priority").data,
         ("Notes").data]
        [[("10").data]]).1 = [] ∧
      (generate_migration_mapping
        [("Nexus_VLAN").data, ("VLAN_Name").data, ("ACI_Tenant").data,
         ("ACI_Application_Profile").data, ("ACI_EPG").data,
         ("ACI_Bridge_Domain").data, ("Migration_Priority").data,
         ("Notes").data]
        [[("10").data]]).2 = true) ∧
    dictLookup (some (("10").data))
        (generate_migration_mapping requiredColumns
          [[("10").data, ("A").data], [("10").data, ("B").data]]).1 =
      lastAssoc (some (("10").data))
        ([[("10").data, ("A").data], [("10").data, ("B").data]].map
          (fun r => rowEntryD requiredColumns r)) := by
  constructor
  · have h := (C7_mapping_loader_spec.1
      [("Nexus_VLAN").data, ("VLAN_Name").data, ("ACI_Tenant").data,
       ("ACI_Application_Profile").data, ("ACI_EPG").data,
       ("ACI_Bridge_Domain").data, ("Migration_Priority").data,
       ("Notes").data]
      [[("10").data]] (("Subnet").data) (by decide) (by decide))
    exact ⟨h.1, h.2 (by decide)⟩
  · exact (C7_mapping_loader_spec.2 requiredColumns
      [[("10").data, ("A").data], [("10").data, ("B").data]]
      (fun c hc => hc)).2 (some (("10").data))

/-- C8: every file matching the configuration suffix is parsed and keyed
by its stem in the corpus, regardless of any other file's content (a bad
file never aborts the corpus load); and a parse error inside one file
stops that file at the failing line, returning the partially built
config — lines after the failing one are ignored and no exception
escapes `parse_config_file`. -/
theorem C8_per_file_error_containment :
    (∀ (files : List (PyStr × List PyStr)) (nm : PyStr) (lines : List PyStr),
      (nm, lines) ∈ files → pyEndsWith nm (".cfg").data = true →
      ((files.filter (fun f => pyEndsWith f.1 (".cfg").data)).map
          (fun f => pyStem f.1)).Nodup →
      dictLookup (pyStem nm) (parse_all_configs files) =
        some (parse_config_file lines)) ∧
    (∀ (st' : ParseState) (pre : List PyStr) (l : PyStr) (rest : List PyStr),
      runLinesE initState pre = .ok st' → parseLine st' l = .error () →
      parse_config_file (pre ++ l :: rest) = st'.config) := by
  constructor
  · intro files nm lines hmem hcfg hnd
    unfold parse_all_configs
    have hfold : ∀ (l : List (PyStr × List PyStr))
        (acc : List (PyStr × DeviceConfig)),
        l.foldl (fun acc f => dictInsert (pyStem f.1)
            (parse_config_file f.2) acc) acc =
          (l.map (fun f => (pyStem f.1, parse_config_file f.2))).foldl
            (fun acc p => dictInsert p.1 p.2 acc) acc := by
      intro l
      induction l with
      | nil => intro acc; rfl
      | cons x xs ih =>
        intro acc
        rw [List.foldl_cons, List.map_cons, List.foldl_cons, ih]
    rw [hfold]
    rw [dictLookup_foldl_dictInsert]
    have hmem2 : (pyStem nm, parse_config_file lines) ∈
        (files.filter (fun f => pyEndsWith f.1 (".cfg").data)).map
          (fun f => (pyStem f.1, parse_config_file f.2)) := by
      apply List.mem_map.mpr
      refine ⟨(nm, lines), ?_, rfl⟩
      rw [List.mem_filter]
      exact ⟨hmem, hcfg⟩
    have hnd2 : (((files.filter (fun f => pyEndsWith f.1 (".cfg").data)).map
        (fun f => (pyStem f.1, parse_config_file f.2))).map Prod.fst).Nodup := by
      rw [List.map_map]
      exact hnd
    rw [lastAssoc_of_nodup_mem hnd2 hmem2]
  · intro st' pre l rest hok herr
    unfold parse_config_file
    rw [runLines_append_of_ok hok, runLines_cons_error herr]

/-- Closed instance of `C8_per_file_error_containment`: a corpus with a
well-formed file and a file whose `vlan 10-` line raises mid-parse still
records the good file under its stem, and the bad file's parse stops at
the failing line with the empty config built so far (its later
`hostname` line is ignored). -/
theorem C8_per_file_error_containment_witness :
    dictLookup (pyStem (("good.cfg").data))
      (parse_all_configs
        [(("good.cfg").data, [("hostname sw1").data]),
         (("bad.cfg").data, [("vlan 10-").data, ("hostname ZZZ").data])]) =
      some (parse_config_file [("hostname sw1").data]) ∧
    parse_config_file ([] ++ ("vlan 10-").data :: [("hostname ZZZ").data]) =
      initState.config :=
  ⟨C8_per_file_error_containment.1
      [(("good.cfg").data, [("hostname sw1").data]),
       (("bad.cfg").data, [("vlan 10-").data, ("hostname ZZZ").data])]
      (("good.cfg").data) [("hostname sw1").data]
      (by decide) (by decide) (by decide),
   C8_per_file_error_containment.2 initState [] (("vlan 10-").data)
      [("hostname ZZZ").data] rfl (by decide)⟩

/-- A well-formed range-expander token as the specification describes
it: an integer literal or a two-sided range. -/
inductive RefTok where
  | lit (n : Nat)
  | rng (a b : Nat)

/-- The text of a reference token. -/
def renderTok : RefTok → PyStr
  | .lit n => natToStr n
  | .rng a b => natToStr a ++ '-' :: natToStr b

/-- What the source expands a reference token to: the literal itself, or
`range(a, b+1)` rendered back to strings (empty when `b < a`). -/
def refExpandTok : RefTok → List PyStr
  | .lit n => [natToStr n]
  | .rng a b => (pyRange a b).map natToStr

/-- Comma-joined text of a token list. -/
def renderToks : List RefTok → PyStr
  | [] => []
  | [t] => renderTok t
  | t :: ts => renderTok t ++ ',' :: renderToks ts

lemma mem_pyStrip {c : Char} {s : PyStr} (h : c ∈ pyStrip s) : c ∈ s := by
  unfold pyStrip at h
  rw [List.mem_reverse] at h
  have h2 := (List.dropWhile_sublist Char.isWhitespace).subset h
  rw [List.mem_reverse] at h2
  exact (List.dropWhile_sublist Char.isWhitespace).subset h2

lemma contains_eq_false_of_not_mem {s : PyStr} {c : Char} (h : c ∉ s) :
    s.contains c = false := by
  rw [contains_eq_decide_mem]
  simpa using h

lemma expandStripped_nohyphen {s : PyStr} (h : ¬ '-' ∈ s) :
    expandStripped s = .ok [s] := by
  unfold expandStripped
  rw [contains_eq_false_of_not_mem h]
  rfl

lemma expandPart_nohyphen {s : PyStr} (h : ¬ '-' ∈ s) :
    expandPart s = .ok [pyStrip s] := by
  unfold expandPart
  exact expandStripped_nohyphen (fun hm => h (mem_pyStrip hm))

lemma pySplitOn_ne_nil (sep : Char) (s : PyStr) : pySplitOn sep s ≠ [] := by
  cases s with
  | nil => simp [pySplitOn]
  | cons c cs =>
    rw [pySplitOn]
    by_cases h : c = sep
    · simp [h]
    · simp only [h, if_false]
      cases pySplitOn sep cs <;> simp

lemma renderTok_no_ws (t : RefTok) : ∀ c ∈ renderTok t, c.isWhitespace = false := by
  cases t with
  | lit n =>
    intro c hc
    exact isDigit_isWhitespace_false (natToStr_digits n c hc)
  | rng a b =>
    intro c hc
    unfold renderTok at hc
    rcases List.mem_append.mp hc with hc | hc
    · exact isDigit_isWhitespace_false (natToStr_digits a c hc)
    · rcases List.mem_cons.mp hc with rfl | hc
      · decide
      · exact isDigit_isWhitespace_false (natToStr_digits b c hc)

lemma renderTok_no_comma (t : RefTok) : ∀ c ∈ renderTok t, c ≠ ',' := by
  cases t with
  | lit n => exact natToStr_ne_comma n
  | rng a b =>
    intro c hc
    unfold renderTok at hc
    rcases List.mem_append.mp hc with hc | hc
    · exact natToStr_ne_comma a c hc
    · rcases List.mem_cons.mp hc with rfl | hc
      · decide
      · exact natToStr_ne_comma b c hc

lemma pyStrip_renderTok (t : RefTok) : pyStrip (renderTok t) = renderTok t :=
  pyStrip_eq_self (renderTok_no_ws t)

lemma expandPart_renderTok (t : RefTok) :
    expandPart (renderTok t) = .ok (refExpandTok t) := by
  cases t with
  | lit n =>
    rw [show renderTok (.lit n) = natToStr n from rfl]
    unfold expandPart
    rw [pyStrip_eq_self (fun c hc =>
      isDigit_isWhitespace_false (natToStr_digits n c hc))]
    exact expandStripped_nohyphen (fun hm => natToStr_ne_hyphen n '-' hm rfl)
  | rng a b =>
    rw [show renderTok (.rng a b) = natToStr a ++ '-' :: natToStr b from rfl]
    unfold expandPart
    obtain ⟨c, q, hcq⟩ : ∃ c q, natToStr a = c :: q := by
      cases h : natToStr a with
      | nil => exact absurd h (natToStr_ne_nil a)
      | cons c q => exact ⟨c, q, rfl⟩
    have hstrip : pyStrip (natToStr a ++ '-' :: natToStr b) =
        natToStr a ++ '-' :: natToStr b := by
      apply pyStrip_append_of c q hcq
      · exact isDigit_isWhitespace_false
          (natToStr_digits a c (by rw [hcq]; simp))
      · simp
      · intro x hx
        rcases List.mem_cons.mp hx with rfl | hx
        · decide
        · exact isDigit_isWhitespace_false (natToStr_digits b x hx)
    rw [hstrip]
    unfold expandStripped
    have hcont : (natToStr a ++ '-' :: natToStr b).contains '-' = true := by
      rw [contains_eq_decide_mem]
      simp
    rw [hcont]
    simp only [if_true]
    rw [pySplitOn_append_sep (natToStr b) (natToStr_ne_hyphen a),
      pySplitOn_no_sep (natToStr_ne_hyphen b)]
    dsimp only
    rw [pyIntNat_natToStr, pyIntNat_natToStr]
    rfl

lemma parseVlanListAux_cons_ok {x : PyStr} {v : List PyStr}
    {l : List PyStr} {r : List PyStr} (hx : expandPart x = .ok v)
    (hl : parseVlanListAux l = .ok r) :
    parseVlanListAux (x :: l) = .ok (v ++ r) := by
  simp only [parseVlanListAux, hx, hl]
  rfl

/-- C6 counterexample: the Range Expander accepts `"abc"` verbatim and
expands the reversed range `"5-3"` to the empty sequence — neither fails
with `FormatError` as the claim states (only `"10-"` does). -/
theorem C6_counterexample :
    parse_vlan_list ("abc").data = .ok [("abc").data] ∧
    parse_vlan_list ("5-3").data = .ok [] ∧
    parse_vlan_list ("10-").data = .error () := by
  decide

/-- C6 amended: the Range Expander returns the in-order concatenation of
token expansions with no deduplication or sorting, where a hyphen-free
token is returned verbatim (stripped) with no integer validation, and a
token `A-B` of two integer literals expands to the inclusive sequence
from A to B — empty when B < A; only hyphenated tokens that do not split
into two integer literals fail. -/
theorem C6_expander_amended :
    (∀ s : PyStr, ¬ ',' ∈ s → ¬ '-' ∈ s →
      parse_vlan_list s = .ok [pyStrip s]) ∧
    (∀ toks : List RefTok, toks ≠ [] →
      parse_vlan_list (renderToks toks) =
        .ok (toks.flatMap refExpandTok)) := by
  constructor
  · intro s hc hh
    unfold parse_vlan_list
    rw [pySplitOn_no_sep (by
      intro c hcs heq
      subst heq
      exact hc hcs)]
    have h := parseVlanListAux_cons_ok (expandPart_nohyphen hh)
      (rfl : parseVlanListAux [] = .ok [])
    rw [h]
    simp
  · intro toks hne
    induction toks with
    | nil => exact absurd rfl hne
    | cons t ts ih =>
      cases ts with
      | nil =>
        unfold parse_vlan_list
        rw [show renderToks [t] = renderTok t from rfl]
        rw [pySplitOn_no_sep (renderTok_no_comma t)]
        rw [parseVlanListAux_cons_ok (expandPart_renderTok t)
          (rfl : parseVlanListAux [] = .ok [])]
        simp
      | cons t2 ts2 =>
        unfold parse_vlan_list at ih ⊢
        rw [show renderToks (t :: t2 :: ts2) =
          renderTok t ++ ',' :: renderToks (t2 :: ts2) from rfl]
        rw [pySplitOn_append_sep (renderToks (t2 :: ts2))
          (renderTok_no_comma t)]
        have hrest := ih (by simp)
        cases hsp : pySplitOn ',' (renderToks (t2 :: ts2)) with
        | nil => exact absurd hsp (pySplitOn_ne_nil ',' _)
        | cons y ys =>
          rw [hsp] at hrest
          rw [parseVlanListAux_cons_ok (expandPart_renderTok t) hrest]
          simp

/-- Closed instance of `C6_expander_amended`: `"abc"` is returned
verbatim, and `expand("10,20,30-32") = ["10","20","30","31","32"]`. -/
theorem C6_expander_amended_witness :
    parse_vlan_list ("abc").data = .ok [pyStrip ("abc").data] ∧
    parse_vlan_list (renderToks [.lit 10, .lit 20, .rng 30 32]) =
      .ok ([.lit 10, .lit 20,
        (.rng 30 32 : RefTok)].flatMap refExpandTok) :=
  ⟨C6_expander_amended.1 ("abc").data (by decide) (by decide),
   C6_expander_amended.2 [.lit 10, .lit 20, .rng 30 32] (by simp)⟩

lemma pyStartsWith_ne_head {a b : Char} (h : (a == b) = false)
    (as_ bs : PyStr) : pyStartsWith (a :: as_) (b :: bs) = false := by
  rw [pyStartsWith_cons_cons, h]
  rfl

/-- C4 counterexample: after `vlan 10`, `vlan 20`, `vlan 5-10` the VLAN
id most recently emitted is 10, but re-inserting key `10` keeps its
original dict position, so `name Eng` names VLAN 9 (the last dict key)
and leaves VLAN 10 at its default — the claim predicts VLAN 10 gets the
name. -/
theorem C4_counterexample :
    (parse_config_file [("vlan 10").data, ("vlan 20").data,
        ("vlan 5-10").data, (" name Eng").data]).vlans =
      [(("10").data, ⟨("VLAN_10").data⟩), (("20").data, ⟨("VLAN_20").data⟩),
       (("5").data, ⟨("VLAN_5").data⟩), (("6").data, ⟨("VLAN_6").data⟩),
       (("7").data, ⟨("VLAN_7").data⟩), (("8").data, ⟨("VLAN_8").data⟩),
       (("9").data, ⟨("Eng").data⟩)] := by
  decide

/-- C4 amended: while the vlan section is active and the VLAN mapping is
nonempty, a `name <w>` line sets the name of the record holding the
mapping's last position — the most recently first-inserted VLAN id,
which is the last id of the most recent expansion only when that id was
not already defined — and changes no other record or parser state. -/
theorem C4_name_targets_last_key (st : ParseState) (w : PyStr)
    (d : List (PyStr × VlanRecord)) (k : PyStr) (r : VlanRecord)
    (hsec : st.currentSection = some ("vlan").data)
    (hvl : st.config.vlans = d ++ [(k, r)])
    (hk : ∀ p ∈ d, p.1 ≠ k)
    (hw : w ≠ []) (hws : ∀ c ∈ w, c.isWhitespace = false) :
    parseLine st (("name ").data ++ w) =
      .ok { st with config := { st.config with
        vlans := d ++ [(k, ⟨w⟩)] } } := by
  unfold parseLine
  have hstrip : pyStrip ((("name ").data : PyStr) ++ w) = ("name ").data ++ w :=
    pyStrip_append_of 'n' (("ame ").data) rfl (by decide) hw hws
  rw [hstrip]
  unfold parseLineStripped
  have g1 : pyStartsWith ((("name ").data : PyStr) ++ w) (("!").data) = false :=
    pyStartsWith_ne_head (by decide) _ _
  have g2 : ¬ ((("name ").data : PyStr) ++ w = []) := by simp
  have g3 : pyStartsWith ((("name ").data : PyStr) ++ w)
      (("hostname").data) = false := pyStartsWith_ne_head (by decide) _ _
  have g4 : pyStartsWith ((("name ").data : PyStr) ++ w)
      (("vlan ").data) = false := pyStartsWith_ne_head (by decide) _ _
  have g5 : pyStartsWith ((("name ").data : PyStr) ++ w)
      (("name ").data) = true := pyStartsWith_append_self _ _
  have hdec : decide ((some (("vlan").data) : Option PyStr) =
      some (("vlan").data)) = true := by decide
  have hne : ¬ (st.config.vlans = []) := by
    rw [hvl]
    simp
  have hsplit : pySplitWs ((("name ").data : PyStr) ++ w) =
      [("name").data, w] := by
    have hconv : ((("name ").data : PyStr) ++ w) =
        ("name").data ++ ' ' :: w := rfl
    rw [hconv]
    exact pySplitWs_keyword _ _ (by decide) (by decide) hws hw
  have hjoin : pyJoinSpace ([(("name").data : PyStr), w].drop 1) = w := by
    simp [pyJoinSpace, List.intercalate]
  have hlast : ((d ++ [(k, r)]).map Prod.fst).getLast? = some k := by
    rw [List.map_append]
    exact List.getLast?_concat _
  have hne2 : ¬ (d ++ [(k, r)] = []) := by simp
  simp only [g1, decide_eq_false g2, g3, g4, g5, hsec, hdec, Bool.false_or,
    Bool.or_false, Bool.false_eq_true, if_false, Bool.true_and, if_true,
    hvl, hlast, hsplit, hjoin, decide_True, eq_self_iff_true,
    if_neg hne2]
  rw [dictUpdate_append_last k (fun _ => ⟨w⟩) d r hk]

/-- Closed instance of `C4_name_targets_last_key`: after `vlan 10-12`, a
`name Eng` line names VLAN 12 and leaves 10 and 11 at their defaults. -/
theorem C4_name_targets_last_key_witness :
    parseLine
      ⟨{ vlans := [(("10").data, ⟨("VLAN_10").data⟩),
          (("11").data, ⟨("VLAN_11").data⟩),
          (("12").data, ⟨("VLAN_12").data⟩)] },
        some ("vlan").data, none⟩
      ((("name ").data : PyStr) ++ ("Eng").data) =
      .ok ⟨{ vlans := [(("10").data, ⟨("VLAN_10").data⟩),
          (("11").data, ⟨("VLAN_11").data⟩),
          (("12").data, ⟨("Eng").data⟩)] },
        some ("vlan").data, none⟩ :=
  C4_name_targets_last_key
    ⟨{ vlans := [(("10").data, ⟨("VLAN_10").data⟩),
        (("11").data, ⟨("VLAN_11").data⟩),
        (("12").data, ⟨("VLAN_12").data⟩)] },
      some ("vlan").data, none⟩
    (("Eng").data)
    [(("10").data, ⟨("VLAN_10").data⟩), (("11").data, ⟨("VLAN_11").data⟩)]
    (("12").data) ⟨("VLAN_12").data⟩
    rfl rfl (by decide) (by decide) (by decide)

lemma foldl_dictInsert_fresh {κ α β : Type} [DecidableEq κ]
    (key : β → κ) (val : β → α) :
    ∀ (xs : List β) (d : List (κ × α)),
      (∀ x ∈ xs, ∀ p ∈ d, p.1 ≠ key x) → (xs.map key).Nodup →
      xs.foldl (fun acc x => dictInsert (key x) (val x) acc) d =
        d ++ xs.map (fun x => (key x, val x)) := by
  intro xs
  induction xs with
  | nil => intro d _ _; simp
  | cons x xs ih =>
    intro d hf hnd
    rw [List.foldl_cons,
      dictInsert_append_fresh (key x) (val x) d (fun p hp => hf x (by simp) p hp)]
    rw [List.map_cons, List.nodup_cons] at hnd
    have hfr : ∀ y ∈ xs, ∀ p ∈ d ++ [(key x, val x)], p.1 ≠ key y := by
      intro y hy p hp
      rcases List.mem_append.mp hp with hp | hp
      · exact hf y (by simp [hy]) p hp
      · rcases List.mem_singleton.mp hp with rfl
        intro he
        apply hnd.1
        have he2 : key x = key y := he
        rw [he2]
        exact List.mem_map_of_mem key hy
    rw [ih (d ++ [(key x, val x)]) hfr hnd.2]
    simp

/-- C1 counterexample: the line `vlan 10,20` is not comma-expanded: the
parser records a single VlanRecord keyed by the literal string `10,20`,
while the Range Expander (used for trunk lists) expands the same text to
`["10", "20"]` — the two parse paths do not apply the same expansion. -/
theorem C1_counterexample :
    (parse_config_file [("vlan 10,20").data]).vlans =
      [(("10,20").data, ⟨("VLAN_10,20").data⟩)] ∧
    parse_vlan_list ("10,20").data = .ok [("10").data, ("20").data] := by
  decide

/-- C1 amended: a `vlan <spec>` line uses its own inline expansion, not
the Range Expander: a hyphen-free token inserts exactly one record keyed
by the literal token with default name `VLAN_<token>`, and a token
`A-B` of two integer literals inserts one defaulted record per id of
`range(A, B+1)` in ascending order (appended when the ids are new). -/
theorem C1_vlan_line_amended :
    (∀ (st : ParseState) (t : PyStr), t ≠ [] →
      (∀ c ∈ t, c.isWhitespace = false) → ¬ '-' ∈ t →
      parseLine st ((("vlan ").data : PyStr) ++ t) =
        .ok { st with
          currentSection := some ("vlan").data,
          config := { st.config with
            vlans := dictInsert t ⟨("VLAN_").data ++ t⟩ st.config.vlans } }) ∧
    (∀ (st : ParseState) (a b : Nat),
      (∀ i ∈ pyRange a b, ∀ p ∈ st.config.vlans, p.1 ≠ natToStr i) →
      parseLine st ((("vlan ").data : PyStr) ++ natToStr a ++ '-' :: natToStr b) =
        .ok { st with
          currentSection := some ("vlan").data,
          config := { st.config with
            vlans := st.config.vlans ++ (pyRange a b).map
              (fun i => (natToStr i, ⟨("VLAN_").data ++ natToStr i⟩)) } }) := by
  have hguards : ∀ t : PyStr, t ≠ [] → (∀ c ∈ t, c.isWhitespace = false) →
      pyStrip ((("vlan ").data : PyStr) ++ t) = ("vlan ").data ++ t ∧
      pyStartsWith ((("vlan ").data : PyStr) ++ t) (("!").data) = false ∧
      ¬ ((("vlan ").data : PyStr) ++ t = []) ∧
      pyStartsWith ((("vlan ").data : PyStr) ++ t)
        (("hostname").data) = false ∧
      pyStartsWith ((("vlan ").data : PyStr) ++ t) (("vlan ").data) = true ∧
      pySplitWs ((("vlan ").data : PyStr) ++ t) = [("vlan").data, t] := by
    intro t hne hws
    refine ⟨pyStrip_append_of 'v' (("lan ").data) rfl (by decide) hne hws,
      pyStartsWith_ne_head (by decide) _ _, by simp,
      pyStartsWith_ne_head (by decide) _ _,
      pyStartsWith_append_self _ _, ?_⟩
    have hconv : ((("vlan ").data : PyStr) ++ t) =
        ("vlan").data ++ ' ' :: t := rfl
    rw [hconv]
    exact pySplitWs_keyword _ _ (by decide) (by decide) hws hne
  constructor
  · intro st t hne hws hh
    obtain ⟨hstrip, g1, g2, g3, g4, hsplit⟩ := hguards t hne hws
    unfold parseLine
    rw [hstrip]
    unfold parseLineStripped
    have hcont : t.contains '-' = false := contains_eq_false_of_not_mem hh
    simp only [g1, decide_eq_false g2, g3, g4, hsplit, hcont, Bool.false_or,
      Bool.false_eq_true, if_false, if_true, List.get?_cons_succ,
      List.get?_cons_zero]
  · intro st a b hfresh
    have htne : (natToStr a ++ '-' :: natToStr b : PyStr) ≠ [] := by simp
    have htws : ∀ c ∈ (natToStr a ++ '-' :: natToStr b : PyStr),
        c.isWhitespace = false := by
      intro c hc
      rcases List.mem_append.mp hc with hc | hc
      · exact isDigit_isWhitespace_false (natToStr_digits a c hc)
      · rcases List.mem_cons.mp hc with rfl | hc
        · decide
        · exact isDigit_isWhitespace_false (natToStr_digits b c hc)
    obtain ⟨hstrip, g1, g2, g3, g4, hsplit⟩ :=
      hguards (natToStr a ++ '-' :: natToStr b) htne htws
    unfold parseLine
    rw [show ((("vlan ").data : PyStr) ++ (natToStr a ++ '-' :: natToStr b)) =
      (("vlan ").data : PyStr) ++ natToStr a ++ '-' :: natToStr b from by
        simp [List.append_assoc]] at hstrip g1 g2 g3 g4 hsplit
    rw [hstrip]
    unfold parseLineStripped
    have hcont : (natToStr a ++ '-' :: natToStr b : PyStr).contains '-' = true := by
      rw [contains_eq_decide_mem]
      simp
    have hsp : pySplitOn '-' (natToStr a ++ '-' :: natToStr b) =
        [natToStr a, natToStr b] := by
      rw [pySplitOn_append_sep (natToStr b) (natToStr_ne_hyphen a),
        pySplitOn_no_sep (natToStr_ne_hyphen b)]
    have hfold : (pyRange a b).foldl
        (fun d i => dictInsert (natToStr i)
          (⟨("VLAN_").data ++ natToStr i⟩ : VlanRecord) d) st.config.vlans =
        st.config.vlans ++ (pyRange a b).map
          (fun i => (natToStr i, ⟨("VLAN_").data ++ natToStr i⟩)) := by
      apply foldl_dictInsert_fresh natToStr
        (fun i => (⟨("VLAN_").data ++ natToStr i⟩ : VlanRecord))
        (pyRange a b) st.config.vlans
        (fun i hi p hp => hfresh i hi p hp)
      exact List.Nodup.map (fun x y h => natToStr_inj h)
        (List.nodup_range' a (b + 1 - a))
    simp only [g1, decide_eq_false g2, g3, g4, hsplit, Bool.false_or,
      Bool.false_eq_true, if_false, if_true, List.get?_cons_succ,
      List.get?_cons_zero, hcont, hsp, pyIntNat_natToStr, hfold]

/-- Closed instance of `C1_vlan_line_amended`: the comma token `10,20`
becomes a single record keyed `10,20`, and `vlan 1-2` appends records
for ids 1 and 2. -/
theorem C1_vlan_line_amended_witness :
    parseLine initState ((("vlan ").data : PyStr) ++ ("10,20").data) =
      .ok { initState with
        currentSection := some ("vlan").data,
        config := { initState.config with
          vlans := dictInsert (("10,20").data)
            ⟨("VLAN_").data ++ ("10,20").data⟩ initState.config.vlans } } ∧
    parseLine initState
        ((("vlan ").data : PyStr) ++ natToStr 1 ++ '-' :: natToStr 2) =
      .ok { initState with
        currentSection := some ("vlan").data,
        config := { initState.config with
          vlans := initState.config.vlans ++ (pyRange 1 2).map
            (fun i => (natToStr i, ⟨("VLAN_").data ++ natToStr i⟩)) } } :=
  ⟨C1_vlan_line_amended.1 initState (("10,20").data) (by decide) (by decide)
    (by decide),
   C1_vlan_line_amended.2 initState 1 2 (by decide)⟩

lemma head_dropWhile_not {p : Char → Bool} :
    ∀ {l : List Char} {c : Char} {cs : List Char},
      l.dropWhile p = c :: cs → p c = false := by
  intro l
  induction l with
  | nil =>
    intro c cs h
    simp [List.dropWhile] at h
  | cons x xs ih =>
    intro c cs h
    rw [List.dropWhile_cons] at h
    by_cases hx : p x
    · rw [if_pos hx] at h
      exact ih h
    · rw [if_neg hx] at h
      cases h
      exact Bool.eq_false_iff.mpr hx

lemma pyStrip_startsWith_space_false (s : PyStr) :
    pyStartsWith (pyStrip s) ((" ").data) = false := by
  cases hps : pyStrip s with
  | nil => decide
  | cons c cs =>
    have hw : c.isWhitespace = false := by
      unfold pyStrip at hps
      have hsuf : List.dropWhile Char.isWhitespace
          ((s.dropWhile Char.isWhitespace).reverse) <:+
          (s.dropWhile Char.isWhitespace).reverse :=
        List.dropWhile_suffix Char.isWhitespace
      have hpre := List.reverse_prefix.mpr hsuf
      rw [List.reverse_reverse] at hpre
      rw [hps] at hpre
      obtain ⟨tl, htl⟩ := hpre
      exact head_dropWhile_not htl.symm
    apply pyStartsWith_ne_head
    rw [beq_eq_false_iff_ne]
    rintro rfl
    exact absurd hw (by decide)

/-- C2 counterexample: lines are stripped before matching, so
indentation is never observable.  The indented unmatched line
`  state active` while the vlan section is active resets the section
(the claim says an indented line leaves the state unchanged), and the
non-indented unmatched line `foo bar` while the interface section is
active is silently ignored without any reset (the claim says it resets
the section). -/
theorem C2_counterexample :
    parseLine ⟨{ vlans := [(("10").data, ⟨("VLAN_10").data⟩)] },
        some ("vlan").data, none⟩ (("  state active").data) =
      .ok ⟨{ vlans := [(("10").data, ⟨("VLAN_10").data⟩)] }, none, none⟩ ∧
    parseLine ⟨{ interfaces := [(("Eth1").data, newInterfaceRecord)] },
        some ("interface").data, some ("Eth1").data⟩ (("foo bar").data) =
      .ok ⟨{ interfaces := [(("Eth1").data, newInterfaceRecord)] },
        some ("interface").data, some ("Eth1").data⟩ := by
  decide

/-- C2 amended: because each line is stripped before matching,
indentation never affects dispatch.  While the vlan section is active,
any unmatched nonblank noncomment line — indented or not — resets the
section and current interface to none; while the interface section is
active with a current interface, any unmatched line is silently ignored
with no state change, so the interface section is never closed by an
unrecognized line. -/
theorem C2_section_boundary_amended :
    (∀ (cfg : DeviceConfig) (ci : Option PyStr) (line : PyStr),
      pyStartsWith (pyStrip line) (("!").data) = false →
      pyStrip line ≠ [] →
      pyStartsWith (pyStrip line) (("hostname").data) = false →
      pyStartsWith (pyStrip line) (("vlan ").data) = false →
      pyStartsWith (pyStrip line) (("name ").data) = false →
      pyStartsWith (pyStrip line) (("interface ").data) = false →
      parseLine ⟨cfg, some ("vlan").data, ci⟩ line =
        .ok ⟨cfg, none, none⟩) ∧
    (∀ (cfg : DeviceConfig) (iface : PyStr) (line : PyStr),
      pyStartsWith (pyStrip line) (("!").data) = false →
      pyStrip line ≠ [] →
      pyStartsWith (pyStrip line) (("hostname").data) = false →
      pyStartsWith (pyStrip line) (("vlan ").data) = false →
      pyStartsWith (pyStrip line) (("interface ").data) = false →
      pyStartsWith (pyStrip line) (("description ").data) = false →
      pyStartsWith (pyStrip line) (("switchport mode").data) = false →
      pyStartsWith (pyStrip line) (("switchport access vlan").data) = false →
      pyStartsWith (pyStrip line)
        (("switchport trunk allowed vlan").data) = false →
      parseLine ⟨cfg, some ("interface").data, some iface⟩ line =
        .ok ⟨cfg, some ("interface").data, some iface⟩) := by
  constructor
  · intro cfg ci line g1 g2 g3 g4 g5 g6
    unfold parseLine parseLineStripped
    have hd1 : decide ((some (("vlan").data) : Option PyStr) =
        some (("interface").data)) = false := by decide
    have hsp := pyStrip_startsWith_space_false line
    simp only [g1, decide_eq_false g2, g3, g4, g5, g6, hd1, Bool.false_or,
      Bool.false_eq_true, if_false, Bool.false_and, Bool.and_false, hsp,
      Bool.not_false, Option.isSome_some, Bool.and_true, Bool.true_and,
      if_true]
  · intro cfg iface line g1 g2 g3 g4 g5 g6 g7 g8 g9
    unfold parseLine parseLineStripped
    have hd1 : decide ((some (("interface").data) : Option PyStr) =
        some (("vlan").data)) = false := by decide
    have hd2 : decide ((some (("interface").data) : Option PyStr) =
        some (("interface").data)) = true := by decide
    simp only [g1, decide_eq_false g2, g3, g4, g5, g6, g7, g8, g9, hd1, hd2,
      Bool.false_or, Bool.false_eq_true, if_false, Bool.false_and,
      Bool.and_false, Option.isSome_some, Bool.and_true, Bool.true_and,
      if_true]
    simp

/-- Closed instance of `C2_section_boundary_amended` at the
counterexample lines. -/
theorem C2_section_boundary_amended_witness :
    parseLine ⟨{ vlans := [(("10").data, ⟨("VLAN_10").data⟩)] },
        some ("vlan").data, none⟩ (("  state active").data) =
      .ok ⟨{ vlans := [(("10").data, ⟨("VLAN_10").data⟩)] }, none, none⟩ ∧
    parseLine ⟨{}, some ("interface").data, some ("Eth1").data⟩
        (("no shutdown").data) =
      .ok ⟨{}, some ("interface").data, some ("Eth1").data⟩ :=
  ⟨C2_section_boundary_amended.1
      { vlans := [(("10").data, ⟨("VLAN_10").data⟩)] } none
      (("  state active").data) (by decide) (by decide) (by decide)
      (by decide) (by decide) (by decide),
   C2_section_boundary_amended.2 {} (("Eth1").data) (("no shutdown").data)
      (by decide) (by decide) (by decide) (by decide) (by decide)
      (by decide) (by decide) (by decide) (by decide)⟩
